import Mathlib

/-!
Verification development for the `service-io` message-routing engine.

The definitions below are a shallow embedding of the Rust sources:
  * `src/message.rs`  — the `Message` value type and the
    `service_name_first_char_to_lowercase` utility;
  * `src/engine.rs`   — `ServiceHandle::process_message`, `Engine::load_services`
    and the dispatch loop of `Engine::run`;
  * `src/connectors/stdin.rs` — the line-oriented `UserStdin` input connector;
  * `src/connectors/mpsc.rs`  — the `OutputConnector` impl for `mpsc::Sender`.

Rust strings are Lean `String`s, `Vec<String>` is `List String`,
`HashMap<String, Vec<u8>>` is an association list `List (String × List Nat)`,
and a tokio `mpsc` channel is modelled by its buffered content (`List Message`)
together with the number of live senders / a closed flag where the code
observes closure.
-/

namespace ServiceIO

/-- Embedding of `Message` (src/message.rs).  `attached_data` keeps the
`HashMap<String, Vec<u8>>` as an association list of byte lists. -/
structure Message where
  user : String
  service_name : String
  args : List String
  body : String
  attached_data : List (String × List Nat)
deriving DecidableEq, Repr

/-- The only unconditional multi-character lowercase mapping in Unicode
`SpecialCasing`: U+0130 (LATIN CAPITAL LETTER I WITH DOT ABOVE). -/
def capitalIWithDot : Char := Char.ofNat 0x0130

/-- U+0307 COMBINING DOT ABOVE, second scalar of the lowercase of U+0130. -/
def combiningDotAbove : Char := Char.ofNat 0x0307

/-- Embedding of Rust `char::to_lowercase` as used by the repository:
the iterator's output collected into a list of scalars.  It returns the
two-scalar expansion for U+0130 (the only unconditional multi-scalar
lowercase mapping in Unicode), lowers the ASCII range `A`–`Z`, and keeps
every other scalar as a fixed point (single-scalar non-ASCII mappings such
as `À` → `à` are modelled as the identity; no claim below distinguishes a
particular single-scalar image, only whether the expansion is one scalar). -/
def charToLowercase (c : Char) : List Char :=
  if c = capitalIWithDot then [Char.ofNat 0x69, combiningDotAbove]
  else if 65 ≤ c.toNat ∧ c.toNat ≤ 90 then [Char.ofNat (c.toNat + 32)]
  else [c]

/-- Embedding of `util::service_name_first_char_to_lowercase`
(src/message.rs:100-107): `chars.next()` is the head of the scalar list;
on `Some`, the result is `first_letter.to_lowercase().collect::<String>()
+ chars.as_str()`; on `None`, `String::new()`. -/
def service_name_first_char_to_lowercase (message : Message) : Message :=
  match message.service_name.data with
  | [] => { message with service_name := String.mk [] }
  | first_letter :: rest =>
      { message with service_name := String.mk (charToLowercase first_letter ++ rest) }

theorem toNat_ofNat_of_valid {n : Nat} (h : n.isValidChar) :
    (Char.ofNat n).toNat = n := by
  rw [Char.ofNat, dif_pos h]; rfl

theorem isValidChar_of_lt {n : Nat} (h : n < 0xd800) : n.isValidChar := Or.inl h

/-- Every scalar that `charToLowercase` emits as the head of its output is a
fixed point of `charToLowercase`. -/
theorem charToLowercase_head_fixed (c : Char) :
    ∀ d ds, charToLowercase c = d :: ds → charToLowercase d = [d] := by
  intro d ds hc
  unfold charToLowercase at hc ⊢
  by_cases hDot : c = capitalIWithDot
  · rw [if_pos hDot] at hc
    cases hc
    have hv : (0x69 : Nat).isValidChar := isValidChar_of_lt (by norm_num)
    have ht : (Char.ofNat 0x69).toNat = 0x69 := toNat_ofNat_of_valid hv
    rw [if_neg, if_neg]
    · intro hrange
      rw [ht] at hrange
      omega
    · intro heq
      have := congrArg Char.toNat heq
      rw [ht] at this
      have hv2 : (0x0130 : Nat).isValidChar := isValidChar_of_lt (by norm_num)
      rw [show capitalIWithDot.toNat = 0x0130 from toNat_ofNat_of_valid hv2] at this
      omega
  · rw [if_neg hDot] at hc
    by_cases hup : 65 ≤ c.toNat ∧ c.toNat ≤ 90
    · rw [if_pos hup] at hc
      cases hc
      have hv : (c.toNat + 32).isValidChar := isValidChar_of_lt (by omega)
      have ht : (Char.ofNat (c.toNat + 32)).toNat = c.toNat + 32 :=
        toNat_ofNat_of_valid hv
      rw [if_neg, if_neg]
      · intro hrange
        rw [ht] at hrange
        omega
      · intro heq
        have := congrArg Char.toNat heq
        rw [ht] at this
        have hv2 : (0x0130 : Nat).isValidChar := isValidChar_of_lt (by norm_num)
        rw [show capitalIWithDot.toNat = 0x0130 from toNat_ofNat_of_valid hv2] at this
        omega
    · rw [if_neg hup] at hc
      cases hc
      rw [if_neg hDot, if_neg hup]

theorem data_mk (l : List Char) : (String.mk l).data = l := rfl

/-- `charToLowercase` always emits at least one scalar. -/
theorem charToLowercase_cons (c : Char) : ∃ d ds, charToLowercase c = d :: ds := by
  unfold charToLowercase
  split
  · exact ⟨_, _, rfl⟩
  split
  · exact ⟨_, _, rfl⟩
  · exact ⟨_, _, rfl⟩

/-! ### The line-oriented stdin source (src/connectors/stdin.rs) -/

/-- Embedding of Rust `str::split_whitespace` over the scalar list: runs of
non-whitespace scalars become the words; whitespace runs separate them and
empty pieces are omitted.  `acc` holds the scalars of the word in progress,
in reverse. -/
def splitWhitespaceAux : List Char → List Char → List String
  | [], [] => []
  | [], acc => [String.mk acc.reverse]
  | c :: cs, acc =>
      if c.isWhitespace then
        match acc with
        | [] => splitWhitespaceAux cs []
        | _ => String.mk acc.reverse :: splitWhitespaceAux cs []
      else splitWhitespaceAux cs (c :: acc)

/-- Embedding of Rust `str::split_whitespace`. -/
def splitWhitespace (s : String) : List String :=
  splitWhitespaceAux s.data []

/-- One iteration of the `UserStdin` loop body (stdin.rs:26-36) applied to a
line already read: `split_whitespace`, and if a first word exists, a message
with that word as `service_name`, the remaining words as `args`, the configured
constant as `user`, and defaulted `body`/`attached_data`.  A blank line yields
no message. -/
def lineToMessage (user_name line : String) : Option Message :=
  match splitWhitespace line with
  | [] => none
  | service :: args =>
      some { user := user_name, service_name := service, args := args
           , body := "", attached_data := [] }

/-- How the `UserStdin::run` loop ends.  The loop body reads
`io::stdin().lock().lines().next().unwrap().unwrap()` (stdin.rs:22): at end of
input, `lines().next()` is `None` and the first `unwrap` panics, so the task
never returns `Ok` — the only non-`ChannelClosed` exit is a panic. -/
inductive StdinTermination where
  | panickedAtEof
deriving DecidableEq, Repr

/-- Embedding of `UserStdin::run` (stdin.rs:18-38) driven by the finite list of
lines standard input holds before EOF, with an open sender: the produced
messages in order, and how the loop ends once the lines run out. -/
def userStdinRun (user_name : String) : List String → List Message × StdinTermination
  | [] => ([], StdinTermination.panickedAtEof)
  | line :: rest =>
      let (msgs, t) := userStdinRun user_name rest
      match lineToMessage user_name line with
      | some m => (m :: msgs, t)
      | none => (msgs, t)

/-! ### Claim theorems about message.rs and stdin.rs -/

/-- C6: the first-char-lowercase mapper is idempotent — applying
`service_name_first_char_to_lowercase` twice yields the same message as
applying it once — and an empty `service_name` stays empty. -/
theorem first_char_lowercase_idempotent (m : Message) :
    service_name_first_char_to_lowercase (service_name_first_char_to_lowercase m)
      = service_name_first_char_to_lowercase m
  ∧ (m.service_name = "" →
      (service_name_first_char_to_lowercase m).service_name = "") := by
  constructor
  · cases hd : m.service_name.data with
    | nil =>
      simp [service_name_first_char_to_lowercase, hd, data_mk]
    | cons c rest =>
      obtain ⟨d, ds, hc⟩ := charToLowercase_cons c
      have hfix := charToLowercase_head_fixed c d ds hc
      simp [service_name_first_char_to_lowercase, hd, hc, data_mk, hfix]
  · intro he
    have hd : m.service_name.data = [] := by rw [he]
    simp [service_name_first_char_to_lowercase, hd, data_mk]

/-- Witness for C6 at a concrete message with empty `service_name`. -/
def emptyNameMessage : Message :=
  { user := "u", service_name := "", args := [], body := "", attached_data := [] }

theorem first_char_lowercase_idempotent_witness :
    service_name_first_char_to_lowercase (service_name_first_char_to_lowercase emptyNameMessage)
      = service_name_first_char_to_lowercase emptyNameMessage
  ∧ (service_name_first_char_to_lowercase emptyNameMessage).service_name = "" :=
  ⟨(first_char_lowercase_idempotent emptyNameMessage).1,
   (first_char_lowercase_idempotent emptyNameMessage).2 rfl⟩

/-- C10 (amended): the mapper leaves `user`, `args`, `body` and `attached_data`
exactly equal, and the resulting `service_name` is the lowercase expansion of
the first scalar followed by the remaining scalars unchanged; whenever that
expansion is a single scalar (every scalar except U+0130), only the first
character can differ. -/
theorem lowercase_mapper_frame (m : Message) (c : Char) (rest : List Char)
    (hd : m.service_name.data = c :: rest) :
    (service_name_first_char_to_lowercase m).user = m.user
  ∧ (service_name_first_char_to_lowercase m).args = m.args
  ∧ (service_name_first_char_to_lowercase m).body = m.body
  ∧ (service_name_first_char_to_lowercase m).attached_data = m.attached_data
  ∧ (service_name_first_char_to_lowercase m).service_name.data
      = charToLowercase c ++ rest := by
  simp [service_name_first_char_to_lowercase, hd, data_mk]

/-- A message whose `service_name` starts with U+0130, the scalar whose
lowercase expansion has two scalars. -/
def dottedIMessage : Message :=
  { user := "u", service_name := String.mk [capitalIWithDot, 'x']
  , args := [], body := "", attached_data := [] }

/-- C10 counterexample: on `dottedIMessage` the characters of `service_name`
after the first are NOT left unchanged — the claim as stated fails. -/
theorem lowercase_mapper_frame_counterexample :
    (service_name_first_char_to_lowercase dottedIMessage).service_name.data.drop 1
      ≠ dottedIMessage.service_name.data.drop 1 := by
  decide

/-- Witness for C10 (amended) at a concrete message. -/
def abMessage : Message :=
  { user := "u", service_name := "Ab", args := [], body := "", attached_data := [] }

theorem lowercase_mapper_frame_witness :
    abMessage.service_name.data = 'A' :: ['b']
  ∧ (service_name_first_char_to_lowercase abMessage).service_name.data
      = charToLowercase 'A' ++ ['b'] :=
  ⟨rfl, (lowercase_mapper_frame abMessage 'A' ['b'] rfl).2.2.2.2⟩

/-- C8 (code bug): the per-line behavior matches the claim — blank lines yield
no message, a nonblank line yields one message with the first token as
`service_name`, the rest as `args`, empty `body`/`attached_data`, the
configured constant as `user` — but at EOF the run does NOT return cleanly:
`lines().next().unwrap()` panics on `None` (stdin.rs:22). -/
theorem stdin_eof_panics :
    userStdinRun "alice" [] = ([], StdinTermination.panickedAtEof)
  ∧ lineToMessage "alice" "   " = none
  ∧ userStdinRun "alice" ["  ", "echo a  b"]
      = ([{ user := "alice", service_name := "echo", args := ["a", "b"]
          , body := "", attached_data := [] }], StdinTermination.panickedAtEof) := by
  exact ⟨rfl, rfl, rfl⟩

/-! ### The engine (src/engine.rs) -/

/-- Embedding of `ServiceHandle` (engine.rs:22-25).  The held
`mpsc::Sender<Message>` is modelled by the queue the worker would receive from
(`queue`, FIFO) together with a `closed` flag that is true exactly when the
worker has exited and dropped its receiver; `send` fails exactly then. -/
structure ServiceHandle where
  whitelist : Option (List String)
  queue : List Message
  closed : Bool
deriving DecidableEq, Repr

/-- The `allowed` match at engine.rs:29-32: member of the whitelist when one is
present, otherwise always allowed.  The `HashSet<String>` is a `List String`
queried by membership. -/
def allowedByWhitelist : Option (List String) → String → Bool
  | some whitelist, user => whitelist.contains user
  | none, _ => true

/-- The structured log events `ServiceHandle::process_message` can emit
(engine.rs:39-52). -/
inductive ProcessLog where
  | infoProcessing (user service args : String)
  | warnRemovedService (service : String)
  | warnNotAllowed (service user : String)
deriving DecidableEq, Repr

/-- Embedding of `ServiceHandle::process_message` (engine.rs:28-54).  The
function is total: every case returns the updated handle and a log event, and
no error reaches the caller. -/
def process_message (h : ServiceHandle) (message : Message) : ServiceHandle × ProcessLog :=
  let allowed := allowedByWhitelist h.whitelist message.user
  if allowed then
    if h.closed then
      (h, ProcessLog.warnRemovedService message.service_name)
    else
      ({ h with queue := h.queue ++ [message] },
       ProcessLog.infoProcessing message.user message.service_name
         (String.intercalate " " message.args))
  else
    (h, ProcessLog.warnNotAllowed message.service_name message.user)

/-- The engine's `HashMap<String, ServiceHandle>` as an association list with
unique keys maintained by `hmInsert`. -/
abbrev ServiceMap := List (String × ServiceHandle)

/-- Map lookup (`HashMap::get`). -/
def hmLookup : ServiceMap → String → Option ServiceHandle
  | [], _ => none
  | (k, v) :: rest, name => if k = name then some v else hmLookup rest name

/-- Map insertion with `HashMap` semantics: inserting an already present key
replaces its value (later entries of `collect` overwrite earlier ones). -/
def hmInsert : ServiceMap → String → ServiceHandle → ServiceMap
  | [], name, v => [(name, v)]
  | (k, w) :: rest, name, v =>
      if k = name then (name, v) :: rest else (k, w) :: hmInsert rest name v

/-- In-place update of the entry stored under a key, as mutation of the handle
`HashMap::get` returned. -/
def hmUpdate : ServiceMap → String → (ServiceHandle → ServiceHandle) → ServiceMap
  | [], _, _ => []
  | (k, v) :: rest, name, f =>
      if k = name then (k, f v) :: rest else (k, v) :: hmUpdate rest name f

/-- The two optional input hooks of `Engine` (engine.rs:68-69). -/
structure DispatchCfg where
  input_mapping : Option (Message → Message)
  input_filtering : Option (Message → Bool)

/-- The mapping match at engine.rs:164-167. -/
def applyMapping (cfg : DispatchCfg) (message : Message) : Message :=
  match cfg.input_mapping with
  | some map => map message
  | none => message

/-- The filtering match at engine.rs:169-172. -/
def applyFiltering (cfg : DispatchCfg) (message : Message) : Bool :=
  match cfg.input_filtering with
  | some filter => filter message
  | none => true

/-- One iteration of the input arm of the dispatch loop (engine.rs:163-183):
map, then filter; when allowed, look the service up by the mapped
`service_name` and let `process_message` act on its handle; otherwise the map
of services is untouched (the message is dropped). -/
def dispatch (cfg : DispatchCfg) (services : ServiceMap) (msg : Message) : ServiceMap :=
  let message := applyMapping cfg msg
  let allowed := applyFiltering cfg message
  if allowed then
    match hmLookup services message.service_name with
    | some _ => hmUpdate services message.service_name
        (fun h => (process_message h message).1)
    | none => services
  else services

/-- Embedding of `ServiceConfig` (engine.rs:16-20); the boxed worker itself
plays no role in routing and is not represented. -/
structure ServiceConfig where
  name : String
  whitelist : Option (List String)

/-- The `ServiceHandle` stored for a registration at engine.rs:247-253: the
configured whitelist and the sender of a freshly created channel. -/
def freshHandle (config : ServiceConfig) : ServiceHandle :=
  { whitelist := config.whitelist, queue := [], closed := false }

/-- What `Engine::load_services` (engine.rs:234-260) returns and what it does
to the output sender: the routing map, how many clones of the output sender
were handed to spawned service workers, and whether the engine still holds its
own copy after the call. -/
structure LoadResult where
  services : ServiceMap
  outputSenderClones : Nat
  engineRetainsOutputSender : Bool
deriving DecidableEq, Repr

/-- Embedding of `Engine::load_services` (engine.rs:234-260): per registration,
one `output_sender.clone()` goes to the spawned worker and the handle is
collected into the map (duplicate names: the later entry overwrites); after the
collect, `drop(output_sender)` releases the engine's own copy (engine.rs:257). -/
def load_services (configs : List ServiceConfig) : LoadResult :=
  { services := configs.foldl (fun m c => hmInsert m c.name (freshHandle c)) []
  , outputSenderClones := configs.foldl (fun n _ => n + 1) 0
  , engineRetainsOutputSender := false }

/-- Live senders of the shared output channel right after `load_services`. -/
def totalOutputSenders (r : LoadResult) : Nat :=
  r.outputSenderClones + (if r.engineRetainsOutputSender then 1 else 0)

/-- tokio mpsc semantics: `recv()` observes `ChannelClosed` exactly when every
sender has been dropped and the buffer is drained. -/
def recvObservesClosed (senders : Nat) (buffer : List Message) : Bool :=
  senders == 0 && buffer.isEmpty

/-- Embedding of the `OutputConnector` impl for `mpsc::Sender`
(connectors/mpsc.rs:21-30) run against an upstream output queue holding
`pending` buffered messages and `senders` live senders, with an open
downstream: `some forwarded` when the task completes (after draining, `recv`
observed `ChannelClosed`, the `?` returned it and the supervisor logged a
clean disconnect), `none` while it is still suspended in `recv` because a
sender is live. -/
def mpscOutputRun (senders : Nat) : List Message → Option (List Message)
  | [] => if senders == 0 then some [] else none
  | m :: rest => (mpscOutputRun senders rest).map (fun f => m :: f)

/-! ### The dispatch loop select (engine.rs:161-188) -/

/-- State the `tokio::select!` of the dispatch loop acts on: the engine input
queue's buffered messages, whether all its senders are gone, and whether the
output supervisor task has completed. -/
structure LoopState where
  inputBuffer : List Message
  inputClosed : Bool
  outputDone : Bool
deriving DecidableEq, Repr

/-- tokio `select!` disables a branch when its pattern fails to match the
completed future's value: the `Some(message) = input_receiver.recv()` branch
(engine.rs:163) is disabled exactly when `recv()` yields `None`, i.e. the
input is closed and its buffer drained. -/
def inputArmDisabled (s : LoopState) : Bool :=
  s.inputClosed && s.inputBuffer.isEmpty

/-- The `_ = &mut output_task` branch (engine.rs:185) has the irrefutable
pattern `_`: it is never disabled. -/
def outputArmDisabled (_ : LoopState) : Bool := false

/-- The `else` branch (engine.rs:186) fires only when every other branch is
disabled. -/
def elseArmFires (s : LoopState) : Bool :=
  inputArmDisabled s && outputArmDisabled s

/-- Whether the loop can `break` from state `s`: the output-task branch
completed (`outputDone`, body `break` at engine.rs:185) or the `else` branch
fired (body `break` at engine.rs:186).  The input branch never breaks. -/
def loopExits (s : LoopState) : Bool :=
  s.outputDone || elseArmFires s

/-! ### Engine construction and the start of run (engine.rs:64-159) -/

/-- Embedding of the `Engine` builder state (engine.rs:64-71).  Only the
presence of each connector matters to the `unwrap`s at the start of `run`, so
the boxed connectors are abstracted to `Unit`; the input hooks and service
registrations are kept.  `Engine::default()` leaves every option `none`. -/
structure Engine where
  input : Option Unit := none
  output : Option Unit := none
  cfg : DispatchCfg := { input_mapping := none, input_filtering := none }
  service_configs : List ServiceConfig := []

/-- `Engine::default()`. -/
def Engine.empty : Engine := {}

/-- `Engine::input` (engine.rs:80-83): records that an input connector is set. -/
def Engine.withInput (e : Engine) : Engine := { e with input := some () }

/-- `Engine::output` (engine.rs:91-94): records that an output connector is set. -/
def Engine.withOutput (e : Engine) : Engine := { e with output := some () }

/-- `Engine::add_service` (engine.rs:118-129): appends a registration with no
whitelist. -/
def Engine.add_service (e : Engine) (name : String) : Engine :=
  { e with service_configs := e.service_configs ++ [{ name := name, whitelist := none }] }

/-- `Engine::add_service_for` (engine.rs:134-146): appends a registration with
a whitelist. -/
def Engine.add_service_for (e : Engine) (name : String) (whitelist : List String) : Engine :=
  { e with service_configs :=
      e.service_configs ++ [{ name := name, whitelist := some whitelist }] }

/-- Outcome of the startup sequence of `Engine::run` (engine.rs:150-159). -/
inductive RunStart where
  | panicked
  | started (loop : LoopState) (loaded : LoadResult)

/-- Embedding of the start of `Engine::run` (engine.rs:150-159):
`self.input.unwrap()` (line 154) and `self.output.unwrap()` (line 157) panic
on `None` before the dispatch loop is ever entered, so no message is
processed; otherwise the loop starts on a fresh empty input queue with the
output supervisor live, after `load_services`. -/
def Engine.runStartup (e : Engine) : RunStart :=
  match e.input with
  | none => RunStart.panicked
  | some _ =>
      match e.output with
      | none => RunStart.panicked
      | some _ =>
          RunStart.started
            { inputBuffer := [], inputClosed := false, outputDone := false }
            (load_services e.service_configs)

/-! ### Association-map lemmas -/

theorem hmLookup_hmUpdate_self (s : ServiceMap) (name : String)
    (f : ServiceHandle → ServiceHandle) (v : ServiceHandle)
    (hv : hmLookup s name = some v) :
    hmLookup (hmUpdate s name f) name = some (f v) := by
  induction s with
  | nil => simp [hmLookup] at hv
  | cons p rest ih =>
    obtain ⟨k, w⟩ := p
    by_cases hk : k = name
    · simp [hmLookup, hk] at hv
      simp [hmUpdate, hmLookup, hk, hv]
    · simp [hmLookup, hk] at hv
      simp [hmUpdate, hmLookup, hk, ih hv]

theorem hmUpdate_filter_ne (s : ServiceMap) (name : String)
    (f : ServiceHandle → ServiceHandle) :
    (hmUpdate s name f).filter (fun p => p.1 != name)
      = s.filter (fun p => p.1 != name) := by
  induction s with
  | nil => rfl
  | cons p rest ih =>
    obtain ⟨k, w⟩ := p
    by_cases hk : k = name
    · simp [hmUpdate, hk, List.filter]
    · have hb : (k != name) = true := by simp [hk]
      simp [hmUpdate, hk, List.filter, ih, hb]

theorem hmLookup_hmInsert_self (s : ServiceMap) (name : String) (v : ServiceHandle) :
    hmLookup (hmInsert s name v) name = some v := by
  induction s with
  | nil => simp [hmInsert, hmLookup]
  | cons p rest ih =>
    obtain ⟨k, w⟩ := p
    by_cases hk : k = name
    · simp [hmInsert, hk, hmLookup]
    · simp [hmInsert, hk, hmLookup, ih]

theorem hmLookup_hmInsert_ne (s : ServiceMap) (name key : String) (v : ServiceHandle)
    (hne : ¬ name = key) :
    hmLookup (hmInsert s name v) key = hmLookup s key := by
  induction s with
  | nil => simp [hmInsert, hmLookup, hne]
  | cons p rest ih =>
    obtain ⟨k, w⟩ := p
    by_cases hk : k = name
    · simp [hmInsert, hk, hmLookup, hne]
    · simp [hmInsert, hk, hmLookup, ih]

theorem foldl_succ_length (l : List ServiceConfig) (k : Nat) :
    l.foldl (fun n _ => n + 1) k = k + l.length := by
  induction l generalizing k with
  | nil => simp
  | cons c cs ih =>
    simp only [List.foldl_cons, List.length_cons, ih]
    omega

/-- The last registration carrying a given name, if any: later registrations
take precedence. -/
def lastRegistration : List ServiceConfig → String → Option ServiceConfig
  | [], _ => none
  | c :: cs, name =>
      match lastRegistration cs name with
      | some d => some d
      | none => if c.name = name then some c else none

theorem hmLookup_load_fold (configs : List ServiceConfig) (acc : ServiceMap)
    (name : String) :
    hmLookup (configs.foldl (fun m c => hmInsert m c.name (freshHandle c)) acc) name
      = match lastRegistration configs name with
        | some d => some (freshHandle d)
        | none => hmLookup acc name := by
  induction configs generalizing acc with
  | nil => rfl
  | cons c cs ih =>
    simp only [List.foldl_cons, lastRegistration]
    rw [ih]
    cases hl : lastRegistration cs name with
    | some d => rfl
    | none =>
      by_cases hn : c.name = name
      · simp [hn, hmLookup_hmInsert_self]
      · simp [hn, hmLookup_hmInsert_ne _ _ _ _ hn]

/-! ### Claim theorems about the engine -/

/-- C2: the dispatch loop exits only when the output supervisor task has
completed.  While `outputDone` is false no branch can `break`: the input
branch's body never breaks, and the `else` arm cannot fire because the
output-task branch has an irrefutable pattern and is never disabled — so the
input queue closing is not by itself a termination condition. -/
theorem loop_exit_requires_output_done (s : LoopState)
    (h : s.outputDone = false) : loopExits s = false := by
  simp [loopExits, elseArmFires, outputArmDisabled, h]

theorem loop_exit_requires_output_done_witness :
    ({ inputBuffer := [], inputClosed := true, outputDone := false } : LoopState).outputDone
      = false
  ∧ loopExits { inputBuffer := [], inputClosed := true, outputDone := false } = false :=
  ⟨rfl, loop_exit_requires_output_done
    { inputBuffer := [], inputClosed := true, outputDone := false } rfl⟩

/-- C3: `process_message` never raises an error to its caller — it is total
and in every case returns the (possibly updated) handle together with a log
event: a whitelist miss drops the message with the "not allowed" warning and
leaves the handle untouched, an enqueue on a closed channel (worker exited)
drops it with the "removed service" warning, and otherwise exactly the message
is appended to the service queue with an info event. -/
theorem process_message_total_spec (h : ServiceHandle) (message : Message) :
    (allowedByWhitelist h.whitelist message.user = false →
       process_message h message
         = (h, ProcessLog.warnNotAllowed message.service_name message.user))
  ∧ (allowedByWhitelist h.whitelist message.user = true → h.closed = true →
       process_message h message
         = (h, ProcessLog.warnRemovedService message.service_name))
  ∧ (allowedByWhitelist h.whitelist message.user = true → h.closed = false →
       process_message h message
         = ({ h with queue := h.queue ++ [message] },
            ProcessLog.infoProcessing message.user message.service_name
              (String.intercalate " " message.args))) := by
  constructor
  · intro ha; simp [process_message, ha]
  constructor
  · intro ha hc; simp [process_message, ha, hc]
  · intro ha hc; simp [process_message, ha, hc]

/-- A handle whose whitelist admits only "alice". -/
def aliceOnlyHandle : ServiceHandle :=
  { whitelist := some ["alice"], queue := [], closed := false }

/-- A message from "mallory" for the "echo" service. -/
def malloryMessage : Message :=
  { user := "mallory", service_name := "echo", args := [], body := ""
  , attached_data := [] }

theorem process_message_total_spec_witness :
    allowedByWhitelist aliceOnlyHandle.whitelist malloryMessage.user = false
  ∧ process_message aliceOnlyHandle malloryMessage
      = (aliceOnlyHandle, ProcessLog.warnNotAllowed "echo" "mallory") :=
  ⟨rfl, (process_message_total_spec aliceOnlyHandle malloryMessage).1 rfl⟩

/-- C5: when the configured filter rejects the mapped message, the dispatch
iteration drops it with no service lookup and no enqueue — the service map is
returned untouched, so no service queue receives the message.  The hypothesis
applies the filter to `applyMapping cfg msg`: the filter acts after the
mapping. -/
theorem filter_after_map_drops (cfg : DispatchCfg) (services : ServiceMap)
    (msg : Message) (hf : applyFiltering cfg (applyMapping cfg msg) = false) :
    dispatch cfg services msg = services := by
  simp [dispatch, hf]

/-- A configuration whose mapping marks messages with a leading 'x' and whose
filter rejects exactly the marked messages: the filter accepts the raw message
and rejects the mapped one, showing the filter acts on the mapped message. -/
def prefixCfg : DispatchCfg :=
  { input_mapping := some (fun m =>
      { m with service_name := String.mk ('x' :: m.service_name.data) })
  , input_filtering := some (fun m =>
      match m.service_name.data with
      | 'x' :: _ => false
      | _ => true) }

/-- A handle with no whitelist and an open, empty queue. -/
def echoHandle : ServiceHandle := { whitelist := none, queue := [], closed := false }

/-- A message from "alice" for the "echo" service. -/
def echoMessage : Message :=
  { user := "alice", service_name := "echo", args := [], body := ""
  , attached_data := [] }

theorem filter_after_map_drops_witness :
    applyFiltering prefixCfg (applyMapping prefixCfg echoMessage) = false
  ∧ applyFiltering prefixCfg echoMessage = true
  ∧ dispatch prefixCfg [("echo", echoHandle)] echoMessage = [("echo", echoHandle)] :=
  ⟨rfl, rfl, filter_after_map_drops prefixCfg [("echo", echoHandle)] echoMessage rfl⟩

/-- A configuration whose filter rejects every message. -/
def alwaysDropCfg : DispatchCfg :=
  { input_mapping := none, input_filtering := some (fun _ => false) }

/-- C1 counterexample: a message whose (identity-mapped) `service_name`
matches a registered service with no whitelist is nevertheless NOT enqueued —
zero copies, not exactly one — when a configured input filter rejects it, so
the claim as stated (which does not condition on the filter) fails. -/
theorem dispatch_enqueue_claim_counterexample :
    hmLookup [("echo", echoHandle)]
        (applyMapping alwaysDropCfg echoMessage).service_name = some echoHandle
  ∧ allowedByWhitelist echoHandle.whitelist
        (applyMapping alwaysDropCfg echoMessage).user = true
  ∧ echoHandle.queue = []
  ∧ dispatch alwaysDropCfg [("echo", echoHandle)] echoMessage = [("echo", echoHandle)] :=
  ⟨rfl, rfl, rfl, rfl⟩

/-- C1 (amended): if after the configured mapping the message's `service_name`
is registered, the configured filter (if any) accepts the mapped message, the
service's whitelist (if any) admits the user, and the service worker has not
exited, then exactly one copy of the mapped message is appended to that
service's inbound queue and every entry of the service map under any other
name is left exactly as it was. -/
theorem dispatch_enqueues_exactly_once (cfg : DispatchCfg) (services : ServiceMap)
    (msg : Message) (h : ServiceHandle)
    (hlk : hmLookup services (applyMapping cfg msg).service_name = some h)
    (hfl : applyFiltering cfg (applyMapping cfg msg) = true)
    (hal : allowedByWhitelist h.whitelist (applyMapping cfg msg).user = true)
    (hop : h.closed = false) :
    hmLookup (dispatch cfg services msg) (applyMapping cfg msg).service_name
      = some { h with queue := h.queue ++ [applyMapping cfg msg] }
  ∧ (dispatch cfg services msg).filter
        (fun p => p.1 != (applyMapping cfg msg).service_name)
      = services.filter (fun p => p.1 != (applyMapping cfg msg).service_name) := by
  have hpm : (process_message h (applyMapping cfg msg)).1
      = { h with queue := h.queue ++ [applyMapping cfg msg] } := by
    simp [process_message, hal, hop]
  have hd : dispatch cfg services msg
      = hmUpdate services (applyMapping cfg msg).service_name
          (fun hh => (process_message hh (applyMapping cfg msg)).1) := by
    simp [dispatch, hfl, hlk]
  rw [hd]
  constructor
  · rw [hmLookup_hmUpdate_self services (applyMapping cfg msg).service_name
      (fun hh => (process_message hh (applyMapping cfg msg)).1) h hlk]
    simp [hpm]
  · exact hmUpdate_filter_ne services (applyMapping cfg msg).service_name
      (fun hh => (process_message hh (applyMapping cfg msg)).1)

/-- The hook-free configuration: no mapping, no filtering. -/
def plainCfg : DispatchCfg := { input_mapping := none, input_filtering := none }

/-- A message from "alice" for the "greet" service. -/
def greetMessage : Message :=
  { user := "alice", service_name := "greet", args := [], body := ""
  , attached_data := [] }

theorem dispatch_enqueues_exactly_once_witness :
    hmLookup [("greet", aliceOnlyHandle), ("other", echoHandle)] "greet"
      = some aliceOnlyHandle
  ∧ hmLookup
        (dispatch plainCfg [("greet", aliceOnlyHandle), ("other", echoHandle)] greetMessage)
        "greet"
      = some { aliceOnlyHandle with queue := aliceOnlyHandle.queue ++ [greetMessage] }
  ∧ (dispatch plainCfg [("greet", aliceOnlyHandle), ("other", echoHandle)] greetMessage).filter
        (fun p => p.1 != "greet")
      = [("greet", aliceOnlyHandle), ("other", echoHandle)].filter (fun p => p.1 != "greet") :=
  ⟨rfl,
   (dispatch_enqueues_exactly_once plainCfg
      [("greet", aliceOnlyHandle), ("other", echoHandle)] greetMessage aliceOnlyHandle
      rfl rfl rfl rfl).1,
   (dispatch_enqueues_exactly_once plainCfg
      [("greet", aliceOnlyHandle), ("other", echoHandle)] greetMessage aliceOnlyHandle
      rfl rfl rfl rfl).2⟩

/-- C4: `load_services` holds no output sender back — the engine's retained
copy is dropped before it returns (engine.rs:257) and exactly one clone per
registration was handed out — so with zero registrations the output channel
has zero live senders, its receiver observes `ChannelClosed` at once, the
mpsc output connector's task completes, and the dispatch loop can exit.  -/
theorem load_services_releases_output_sender (configs : List ServiceConfig) :
    (load_services configs).engineRetainsOutputSender = false
  ∧ (load_services configs).outputSenderClones = configs.length
  ∧ (configs = [] →
       recvObservesClosed (totalOutputSenders (load_services configs)) [] = true
     ∧ (mpscOutputRun (totalOutputSenders (load_services configs)) []).isSome = true
     ∧ loopExits
         { inputBuffer := [], inputClosed := true,
           outputDone :=
             (mpscOutputRun (totalOutputSenders (load_services configs)) []).isSome }
         = true) := by
  refine ⟨rfl, ?_, ?_⟩
  · simp [load_services, foldl_succ_length]
  · intro hc
    subst hc
    exact ⟨rfl, rfl, rfl⟩

theorem load_services_releases_output_sender_witness :
    loopExits
      { inputBuffer := [], inputClosed := true,
        outputDone := (mpscOutputRun (totalOutputSenders (load_services [])) []).isSome }
      = true :=
  ((load_services_releases_output_sender []).2.2 rfl).2.2

/-- C7: duplicate registrations follow the deterministic last-wins policy:
the routing map built by `load_services` resolves every name to the handle of
the LAST registration carrying it (the `HashMap` collect overwrites earlier
duplicates), so only the last-registered service can receive messages routed
under that name; nothing is rejected at startup. -/
theorem duplicate_registration_last_wins (configs : List ServiceConfig)
    (name : String) :
    hmLookup (load_services configs).services name
      = (lastRegistration configs name).map freshHandle := by
  show hmLookup (configs.foldl (fun m c => hmInsert m c.name (freshHandle c)) []) name = _
  rw [hmLookup_load_fold]
  cases lastRegistration configs name <;> rfl

/-- C9: calling `run` on an engine whose input or output connector was never
set panics (the `unwrap` of a `None` at engine.rs:154 / 157) during startup,
before the dispatch loop exists — so before any message is processed. -/
theorem run_panics_without_input_or_output (e : Engine)
    (h : e.input = none ∨ e.output = none) :
    e.runStartup = RunStart.panicked := by
  cases h with
  | inl hi => simp [Engine.runStartup, hi]
  | inr ho =>
    cases hi : e.input with
    | none => simp [Engine.runStartup, hi]
    | some u => simp [Engine.runStartup, hi, ho]

theorem run_panics_without_input_or_output_witness :
    (Engine.empty.withOutput).input = none
  ∧ (Engine.empty.withOutput).runStartup = RunStart.panicked :=
  ⟨rfl, run_panics_without_input_or_output Engine.empty.withOutput (Or.inl rfl)⟩

end ServiceIO
